import Mathlib

/-!
Shallow embedding of the recording lifecycle controller implemented in
`src/src/components/VoiceRecorder.tsx` (the file `src/unnamed/part_000` is an
earlier revision of the same component with identical logic).

The component keeps its session in React state and refs:
`isRecording`, `isPaused`, `recordingTime`, `transcription`, `audioBlob`,
`mediaRecorderRef`, `streamRef`, `chunksRef`, `timerRef`.  We model a binary
buffer (a `Blob`) by its byte content, a `MediaStream` by the liveness flags of
its tracks, a `MediaRecorder` by its phase, and the single `setInterval` timer
by a boolean (the UI only ever starts the timer when it is stopped, so at most
one interval exists along component-level traces).  Toast notifications are
logged in an append-only list.  Event-driven execution (button clicks, the
1-second tick, `ondataavailable`, `onstop`, the transcription timeout) is a
`step` function over an event alphabet, folded over traces by `run`.
-/

namespace VoiceRecorder

/-- A binary chunk (`Blob` slice), identified with its byte content. -/
abbrev Chunk := List Nat

/-- A toast notification as fired through `toast({...})`. -/
structure Toast where
  title : String
  description : String
  destructive : Bool := false
deriving DecidableEq, Repr

/-- A `MediaStream`: the liveness of its tracks (`true` = live).
`track.stop()` turns a flag off. -/
structure Stream where
  tracks : List Bool
deriving DecidableEq, Repr

/-- Model of `streamRef.current.getTracks().forEach(track => track.stop())`. -/
def stopTracks (st : Stream) : Stream :=
  ⟨st.tracks.map fun _ => false⟩

/-- Phase of the `MediaRecorder` object: recording after `start()`/`resume()`,
paused after `pause()`, `stopPending` after `stop()` was called but its
`onstop` callback has not fired yet, inactive afterwards. -/
inductive MRPhase where
  | recording
  | paused
  | stopPending
  | inactive
deriving DecidableEq, Repr

/-- The component state: React state hooks plus the mutable refs. -/
structure RecorderState where
  isRecording : Bool
  isPaused : Bool
  recordingTime : Nat
  transcription : String
  audioBlob : Option (List Nat)
  mediaRecorder : Option MRPhase
  stream : Option Stream
  chunks : List Chunk
  timerActive : Bool
  /-- The pending `setTimeout` of `simulateTranscription`, with its delay in
  milliseconds. -/
  pendingTranscription : Option Nat
  /-- Log of fired toasts, oldest first. -/
  toasts : List Toast
deriving DecidableEq, Repr

/-- Initial component state: `useState(false)`, `useState(false)`,
`useState(0)`, `useState` of the empty string, `useState<Blob|null>(null)`, all
refs null / empty. -/
def initState : RecorderState :=
  { isRecording := false
    isPaused := false
    recordingTime := 0
    transcription := ""
    audioBlob := none
    mediaRecorder := none
    stream := none
    chunks := []
    timerActive := false
    pendingTranscription := none
    toasts := [] }

/-- Source `startTimer`: installs the 1-second interval. -/
def startTimer (s : RecorderState) : RecorderState :=
  { s with timerActive := true }

/-- Source `stopTimer`: clears the interval and nulls the ref. -/
def stopTimer (s : RecorderState) : RecorderState :=
  { s with timerActive := false }

/-- JS `String.prototype.padStart(n, c)`. -/
def padStart (s : String) (n : Nat) (c : Char) : String :=
  String.mk (List.replicate (n - s.length) c) ++ s

/-- Source `formatTime`:
`mins = Math.floor(seconds / 60); secs = seconds % 60;`
rendered as `${mins.padStart(2,'0')}:${secs.padStart(2,'0')}`.
`elapsedSeconds` is a non-negative integer, so the argument is `Nat` and
`Math.floor` of the division is `Nat` division. -/
def formatTime (seconds : Nat) : String :=
  padStart (Nat.repr (seconds / 60)) 2 '0' ++ ":" ++
    padStart (Nat.repr (seconds % 60)) 2 '0'

/-- The `MM:SS` rendering as worded by the spec: minutes field `n / 60`
(unbounded, no hour rollover), seconds field `n % 60`, each zero-padded to
two digits. -/
def specMMSS (n : Nat) : String :=
  (if n / 60 < 10 then "0" ++ Nat.repr (n / 60) else Nat.repr (n / 60)) ++ ":" ++
    (if n % 60 < 10 then "0" ++ Nat.repr (n % 60) else Nat.repr (n % 60))

/-! ### Length facts about `Nat.repr`, needed for the padding analysis -/

/-- With positive fuel, `Nat.toDigitsCore` prepends at least one digit
character to its accumulator. -/
theorem toDigitsCore_length_lower (b : Nat) :
    ∀ (f n : Nat) (acc : List Char), 0 < f →
      acc.length + 1 ≤ (Nat.toDigitsCore b f n acc).length := by
  intro f
  induction f with
  | zero => intro n acc h; exact absurd h (by decide)
  | succ f ih =>
    intro n acc _
    simp only [Nat.toDigitsCore]
    split
    · simp
    · cases f with
      | zero => simp [Nat.toDigitsCore]
      | succ f =>
        have h := ih (n / b) (Nat.digitChar (n % b) :: acc) (Nat.succ_pos f)
        simp only [List.length_cons] at h
        omega

/-- A number with at least two decimal digits has a decimal representation of
length at least two. -/
theorem two_le_repr_length {n : Nat} (h : 10 ≤ n) : 2 ≤ (Nat.repr n).length := by
  have hdiv : n / 10 ≠ 0 := by
    have : 1 ≤ n / 10 := (Nat.le_div_iff_mul_le (by decide)).2 (by omega)
    omega
  cases n with
  | zero => omega
  | succ m =>
    show 2 ≤ (Nat.toDigits 10 (m + 1)).asString.length
    simp only [Nat.toDigits, Nat.toDigitsCore, hdiv, if_false, List.asString,
      String.length]
    have := toDigitsCore_length_lower 10 (m + 1) ((m + 1) / 10)
      [Nat.digitChar ((m + 1) % 10)] (Nat.succ_pos m)
    simpa using this

/-- A single decimal digit has a representation of length one. -/
theorem repr_length_of_lt_ten {n : Nat} (h : n < 10) : (Nat.repr n).length = 1 := by
  interval_cases n <;> rfl

/-- Lemma: `padStart` on a decimal representation realises the wording "zero-padded to
2 digits": one leading zero below ten, no padding from ten upwards. -/
theorem padStart_repr_eq (m : Nat) :
    padStart (Nat.repr m) 2 '0' =
      if m < 10 then "0" ++ Nat.repr m else Nat.repr m := by
  by_cases h : m < 10
  · have hl : (Nat.repr m).length = 1 := repr_length_of_lt_ten h
    simp only [padStart, hl, h, if_true]
    rfl
  · have hl : 2 ≤ (Nat.repr m).length := two_le_repr_length (by omega)
    have hz : 2 - (Nat.repr m).length = 0 := by omega
    simp only [padStart, hz, List.replicate, h, if_false]
    apply String.ext
    simp [String.data_append]

theorem formatTime_eq_specMMSS (n : Nat) : formatTime n = specMMSS n := by
  simp only [formatTime, specMMSS, padStart_repr_eq]

/-! ### Lifecycle operations -/

/-- Toast fired on successful start. -/
def startToast : Toast :=
  ⟨"Gravação iniciada", "Começando a gravar áudio...", false⟩

/-- Toast fired in the `catch` branch of `startRecording`
(`variant: "destructive"`). -/
def errorToast : Toast :=
  ⟨"Erro", "Não foi possível acessar o microfone. Verifique as permissões.", true⟩

/-- Toast fired on pause. -/
def pauseToast : Toast :=
  ⟨"Gravação pausada", "Gravação pausada temporariamente.", false⟩

/-- Toast fired on resume. -/
def resumeToast : Toast :=
  ⟨"Gravação retomada", "Continuando a gravação...", false⟩

/-- Toast fired on stop. -/
def stopToast : Toast :=
  ⟨"Gravação finalizada", "Processando transcrição...", false⟩

/-- Toast fired when the placeholder transcription completes. -/
def transcriptionDoneToast : Toast :=
  ⟨"Transcrição concluída", "O áudio foi transcrito com sucesso!", false⟩

/-- Outcome of the fallible part of `startRecording` (an `async` function whose
body is wrapped in `try/catch`).  `ok n`: `getUserMedia` resolves with a stream
of `n` tracks and everything after it succeeds.  `acquireFail`: `getUserMedia`
rejects (`PermissionDenied` / `DeviceUnavailable`), so nothing after the
`await` on line 51 runs.  `recorderFail n`: `getUserMedia` resolves and
`streamRef.current = stream` (line 52) executes, but the
`new MediaRecorder(stream)` construction on line 54 throws, jumping to the
same `catch`. -/
inductive StartOutcome where
  | ok (nTracks : Nat)
  | acquireFail
  | recorderFail (nTracks : Nat)
deriving DecidableEq, Repr

/-- A freshly acquired stream: all tracks live. -/
def freshStream (n : Nat) : Stream := ⟨List.replicate n true⟩

/-- Source `startRecording` (lines 49-87).  On success: store the stream, create the
recorder (clearing `chunksRef.current = []` and installing the handlers),
`mediaRecorder.start()`, `setIsRecording(true)`, `setIsPaused(false)`,
`startTimer()`, success toast.  On any caught failure: only the error toast —
except that when the failure happens after line 52, the stream handle is
already stored.  Note the function itself has no state guard. -/
def startRecording (s : RecorderState) (o : StartOutcome) : RecorderState :=
  match o with
  | .acquireFail => { s with toasts := s.toasts ++ [errorToast] }
  | .recorderFail n =>
      { s with stream := some (freshStream n), toasts := s.toasts ++ [errorToast] }
  | .ok n =>
      { s with stream := some (freshStream n)
               mediaRecorder := some .recording
               chunks := []
               isRecording := true
               isPaused := false
               timerActive := true
               toasts := s.toasts ++ [startToast] }

/-- The `ondataavailable` handler (lines 58-62): installed on the recorder,
appends the chunk to `chunksRef.current` only when `event.data.size > 0`.
The event can only be delivered when a recorder object exists. -/
def handleDataAvailable (s : RecorderState) (c : Chunk) : RecorderState :=
  if s.mediaRecorder.isSome then
    if 0 < c.length then { s with chunks := s.chunks ++ [c] } else s
  else s

/-- Source `simulateTranscription` (lines 138-154): schedules a `setTimeout` with a
fixed 2000 ms delay. -/
def simulateTranscription (s : RecorderState) : RecorderState :=
  { s with pendingTranscription := some 2000 }

/-- The three hardcoded sample strings of `simulateTranscription`. -/
def sampleTranscriptions : List String :=
  ["Esta é uma transcrição de exemplo do seu áudio gravado. Em um aplicativo real, isso seria processado por um serviço de transcrição como Google Speech-to-Text ou Azure Speech Services.",
   "Olá, esta é uma demonstração do recurso de transcrição de voz. O áudio foi gravado com sucesso e está sendo processado para texto.",
   "Transcrição concluída! Este texto representa o que foi falado durante a gravação. A qualidade da transcrição depende da clareza do áudio e da qualidade do microfone."]

/-- Body of the `setTimeout` callback: `Math.floor(Math.random() * 3)` is an
index in `{0, 1, 2}`, modelled as an oracle `i : Fin 3`; the corresponding
sample string is stored and the completion toast fires. -/
def completeTranscription (s : RecorderState) (i : Fin 3) : RecorderState :=
  { s with transcription := sampleTranscriptions.get ⟨i.val, i.isLt⟩
           pendingTranscription := none
           toasts := s.toasts ++ [transcriptionDoneToast] }

/-- Handler `onstop` of the recorder (lines 64-68): build
`new Blob(chunksRef.current)` — whose byte content is the concatenation of the
chunks in order — store it with `setAudioBlob`, and call
`simulateTranscription`.  The recorder is inactive from here on. -/
def onStop (s : RecorderState) : RecorderState :=
  simulateTranscription
    { s with audioBlob := some s.chunks.flatten
             mediaRecorder := s.mediaRecorder.map fun _ => .inactive }

/-- Source `pauseRecording` (lines 89-109): guarded by
`mediaRecorderRef.current && isRecording`; a toggle that resumes when paused
and pauses otherwise. -/
def pauseRecording (s : RecorderState) : RecorderState :=
  if s.mediaRecorder.isSome && s.isRecording then
    if s.isPaused then
      { s with mediaRecorder := s.mediaRecorder.map fun _ => .recording
               timerActive := true
               isPaused := false
               toasts := s.toasts ++ [resumeToast] }
    else
      { s with mediaRecorder := s.mediaRecorder.map fun _ => .paused
               timerActive := false
               isPaused := true
               toasts := s.toasts ++ [pauseToast] }
  else s

/-- Source `stopRecording` (lines 111-127): guarded by
`mediaRecorderRef.current && isRecording`; calls `mediaRecorder.stop()` (its
`onstop` fires later as a separate event), stops the timer, clears both state
flags, stops every stream track, and fires the stop toast. -/
def stopRecording (s : RecorderState) : RecorderState :=
  if s.mediaRecorder.isSome && s.isRecording then
    { s with mediaRecorder := s.mediaRecorder.map fun _ => .stopPending
             timerActive := false
             isRecording := false
             isPaused := false
             stream := s.stream.map stopTracks
             toasts := s.toasts ++ [stopToast] }
  else s

/-- Source `resetRecording` (lines 129-136): unconditionally zeroes the timer value,
clears the transcription and the blob, clears both flags and stops the timer.
It does **not** touch `chunksRef`, `streamRef`, `mediaRecorderRef` or the
pending transcription timeout. -/
def resetRecording (s : RecorderState) : RecorderState :=
  stopTimer
    { s with recordingTime := 0
             transcription := ""
             audioBlob := none
             isRecording := false
             isPaused := false }

/-- The `useEffect` cleanup (lines 21-28), run on unmount: cancel the interval
if present and stop every track of the stored stream. -/
def teardown (s : RecorderState) : RecorderState :=
  { s with timerActive := false, stream := s.stream.map stopTracks }

/-- Model of `.slice(0, 19)`: the first 19 characters, i.e. the date and the
seconds-precision time of the ISO-8601 string. -/
def sliceTo (s : String) (n : Nat) : String := ⟨s.data.take n⟩

/-- Model of the regex replacement of every colon by a hyphen. -/
def replaceColon (s : String) : String :=
  ⟨s.data.map fun c => if c = ':' then '-' else c⟩

/-- File name built by `downloadAudio` (line 161) from the current ISO-8601
timestamp. -/
def downloadFileName (iso : String) : String :=
  "gravacao-" ++ replaceColon (sliceTo iso 19) ++ ".wav"

/-! ### Event-driven execution -/

/-- The event alphabet of the single-threaded event loop: user clicks on the
rendered controls, the interval tick, chunk delivery, the recorder `onstop`
callback, and the transcription timeout firing. -/
inductive Event where
  /-- A click on the start control.  The mic circle (line 207) and the start
  button (lines 240-248) are only wired/rendered when `!isRecording`. -/
  | startClick (o : StartOutcome)
  /-- A click on the pause/resume toggle button. -/
  | pauseClick
  /-- A click on the stop button. -/
  | stopClick
  /-- A click on the reset button, rendered only when
  `(recordingTime > 0 || transcription || audioBlob) && !isRecording`
  (line 281). -/
  | resetClick
  /-- The 1-second interval callback; only runs while the interval is
  installed. -/
  | tick
  /-- The host delivers a data chunk to the recorder. -/
  | dataAvailable (c : Chunk)
  /-- The `onstop` callback of the recorder fires. -/
  | recorderOnStop
  /-- The transcription `setTimeout` fires with random index `i`. -/
  | transcriptionFire (i : Fin 3)
deriving DecidableEq, Repr

/-- Reset button visibility condition (line 281), with JS truthiness of the
string and the nullable blob spelled out. -/
def uiResetEnabled (s : RecorderState) : Bool :=
  (decide (0 < s.recordingTime) || !(s.transcription == "") || s.audioBlob.isSome)
    && !s.isRecording

/-- One step of the event loop. -/
def step (s : RecorderState) (e : Event) : RecorderState :=
  match e with
  | .startClick o => if s.isRecording then s else startRecording s o
  | .pauseClick => pauseRecording s
  | .stopClick => stopRecording s
  | .resetClick => if uiResetEnabled s then resetRecording s else s
  | .tick => if s.timerActive then { s with recordingTime := s.recordingTime + 1 } else s
  | .dataAvailable c => handleDataAvailable s c
  | .recorderOnStop => if s.mediaRecorder = some .stopPending then onStop s else s
  | .transcriptionFire i =>
      if s.pendingTranscription.isSome then completeTranscription s i else s

/-- Running a trace of events. -/
def run (s : RecorderState) (es : List Event) : RecorderState :=
  es.foldl step s

/-- Host scheduling constraints: a tick only fires while the interval is
installed, chunks are only delivered while the recorder is actively recording,
`onstop` only fires once `stop()` was called, and the transcription timeout
only fires while scheduled. -/
def hostOk (s : RecorderState) : Event → Bool
  | .tick => s.timerActive
  | .dataAvailable _ => s.mediaRecorder = some .recording
  | .recorderOnStop => s.mediaRecorder = some .stopPending
  | .transcriptionFire _ => s.pendingTranscription.isSome
  | _ => true

/-- A trace every event of which respects the host scheduling constraints. -/
def validFrom : RecorderState → List Event → Bool
  | _, [] => true
  | s, e :: es => hostOk s e && validFrom (step s e) es



/-! ### Timer / state-flag invariant -/

/-- One step preserves the invariant that the interval is installed exactly
while the component is recording and not paused. -/
theorem timerInv_step (s : RecorderState) (e : Event)
    (h : s.timerActive = (s.isRecording && !s.isPaused)) :
    (step s e).timerActive = ((step s e).isRecording && !(step s e).isPaused) := by
  cases e with
  | startClick o =>
      simp only [step]
      split
      · exact h
      · cases o <;> simp [startRecording, h]
  | pauseClick =>
      simp only [step, pauseRecording]
      split
      · next hg =>
          rw [Bool.and_eq_true] at hg
          split
          · simp [hg.2]
          · simp
      · exact h
  | stopClick =>
      simp only [step, stopRecording]
      split
      · simp
      · exact h
  | resetClick =>
      simp only [step]
      split
      · simp [resetRecording, stopTimer]
      · exact h
  | tick =>
      simp only [step]
      split
      · simpa using h
      · exact h
  | dataAvailable c =>
      simp only [step, handleDataAvailable]
      split
      · split
        · simpa using h
        · exact h
      · exact h
  | recorderOnStop =>
      simp only [step]
      split
      · simpa [onStop, simulateTranscription] using h
      · exact h
  | transcriptionFire i =>
      simp only [step]
      split
      · simpa [completeTranscription] using h
      · exact h

/-- The timer invariant along any trace. -/
theorem timerInv_run (s : RecorderState)
    (h : s.timerActive = (s.isRecording && !s.isPaused)) (es : List Event) :
    (run s es).timerActive =
      ((run s es).isRecording && !(run s es).isPaused) := by
  induction es generalizing s with
  | nil => exact h
  | cons e es ih => exact ih (step s e) (timerInv_step s e h)

/-- Claim C1: along every event trace from the initial state, a second-tick
increases `recordingTime` by exactly 1 when the component is in the Recording
state (`isRecording` and not `isPaused`) and leaves it unchanged in every
other state; in the scenario start, pause, 3 ticks, resume, 2 ticks, stop, the
elapsed time is 2. -/
theorem elapsed_increments_only_while_recording (es : List Event) :
    ((run initState (es ++ [Event.tick])).recordingTime =
      if (run initState es).isRecording && !(run initState es).isPaused then
        (run initState es).recordingTime + 1
      else (run initState es).recordingTime)
    ∧ (run initState
        [Event.startClick (.ok 1), Event.pauseClick, Event.tick, Event.tick,
         Event.tick, Event.pauseClick, Event.tick, Event.tick,
         Event.stopClick]).recordingTime = 2 := by
  constructor
  · have hinv := timerInv_run initState rfl es
    rw [run, List.foldl_append]
    show (step (run initState es) Event.tick).recordingTime = _
    simp only [step, hinv]
    split
    · next hcond => simp [hcond]
    · next hcond => simp [Bool.not_eq_true _ ▸ hcond]
  · decide

/-- Counterexample to claim C2: `resetRecording` invoked in the Recording
state is not a no-op — it flips `isRecording` off (while leaving the recorder
and stream running) and so changes the session. -/
theorem reset_while_recording_changes_state :
    resetRecording (run initState [Event.startClick (.ok 1)]) ≠
      run initState [Event.startClick (.ok 1)] := by decide

/-- Claim C2 as amended: `pause()`, `resume()` and `stop()` misuse is a silent
no-op thanks to the in-function guard `mediaRecorderRef.current && isRecording`
(this covers pause/resume/stop from Idle or Stopped, and stop before any
recorder exists); `start()` and `reset()` carry no in-function guard, but the
component only wires them when `!isRecording`, so as component-level actions
they leave the state unchanged when invoked while Recording or Paused. -/
theorem lifecycle_misuse_noop (s : RecorderState) (o : StartOutcome) :
    (s.isRecording = false → pauseRecording s = s ∧ stopRecording s = s)
    ∧ (s.mediaRecorder = none → pauseRecording s = s ∧ stopRecording s = s)
    ∧ (s.isRecording = true →
        step s (Event.startClick o) = s ∧ step s Event.resetClick = s) := by
  refine ⟨fun h => ⟨?_, ?_⟩, fun h => ⟨?_, ?_⟩, fun h => ⟨?_, ?_⟩⟩
  · simp [pauseRecording, h]
  · simp [stopRecording, h]
  · simp [pauseRecording, h]
  · simp [stopRecording, h]
  · simp [step, h]
  · simp [step, uiResetEnabled, h]

/-- Witness for the amended claim C2 at concrete states: misuse from the
initial (Idle) state and from a Recording state. -/
theorem lifecycle_misuse_noop_witness :
    pauseRecording initState = initState ∧
    stopRecording initState = initState ∧
    step (run initState [Event.startClick (.ok 1)]) Event.resetClick =
      run initState [Event.startClick (.ok 1)] ∧
    step (run initState [Event.startClick (.ok 1)])
        (Event.startClick (.ok 2)) =
      run initState [Event.startClick (.ok 1)] := by
  refine ⟨?_, ?_, ?_, ?_⟩
  · exact ((lifecycle_misuse_noop initState .acquireFail).1 (by decide)).1
  · exact ((lifecycle_misuse_noop initState .acquireFail).1 (by decide)).2
  · exact ((lifecycle_misuse_noop (run initState [Event.startClick (.ok 1)])
      .acquireFail).2.2 (by decide)).2
  · exact ((lifecycle_misuse_noop (run initState [Event.startClick (.ok 1)])
      (.ok 2)).2.2 (by decide)).1

/-- Counterexample to claim C4: a failure inside `start()` that happens after
the stream was acquired (the `MediaRecorder` construction on line 54 throws)
leaves the stream handle committed in `streamRef`, so not every failure of
`start()` is free of partial state. -/
theorem start_later_failure_commits_stream :
    (startRecording initState (StartOutcome.recorderFail 1)).stream ≠ none := by
  decide

/-- Claim C4 as amended: when `getUserMedia` itself fails (PermissionDenied or
DeviceUnavailable), `start()` aborts with no partial state — the resulting
state is the old one plus exactly one destructive failure toast, so the state
stays Idle with no stored stream or recorder, no chunks and no running timer.
When a later failure inside `start()` occurs (modelled: the `MediaRecorder`
constructor throws), the state flags, timer and chunks are likewise untouched
and exactly one failure toast fires, but the acquired stream handle remains
stored with its tracks live. -/
theorem start_failure_semantics (s : RecorderState) (n : Nat) :
    startRecording s .acquireFail = { s with toasts := s.toasts ++ [errorToast] }
    ∧ (startRecording s (.recorderFail n)).isRecording = s.isRecording
    ∧ (startRecording s (.recorderFail n)).isPaused = s.isPaused
    ∧ (startRecording s (.recorderFail n)).timerActive = s.timerActive
    ∧ (startRecording s (.recorderFail n)).chunks = s.chunks
    ∧ (startRecording s (.recorderFail n)).mediaRecorder = s.mediaRecorder
    ∧ (startRecording s (.recorderFail n)).stream = some (freshStream n)
    ∧ (startRecording s (.recorderFail n)).toasts = s.toasts ++ [errorToast] :=
  ⟨rfl, rfl, rfl, rfl, rfl, rfl, rfl, rfl⟩

/-- Counterexample to claim C5: after a complete session (start, one chunk,
stop, `onstop`), `reset()` runs (its button condition holds: the blob is set
and the component is not recording), clears the blob — yet the captured-chunks
buffer still holds the old chunk instead of being emptied. -/
theorem reset_leaves_chunks :
    (run initState
      [Event.startClick (.ok 1), Event.dataAvailable [7], Event.stopClick,
       Event.recorderOnStop, Event.resetClick]).chunks ≠ []
    ∧ (run initState
      [Event.startClick (.ok 1), Event.dataAvailable [7], Event.stopClick,
       Event.recorderOnStop, Event.resetClick]).audioBlob = none
    ∧ (run initState
      [Event.startClick (.ok 1), Event.dataAvailable [7], Event.stopClick,
       Event.recorderOnStop, Event.resetClick]).recordingTime = 0 := by
  refine ⟨by decide, by decide, by decide⟩

/-- Claim C5 as amended: `resetRecording` sets `recordingTime` to 0, the
transcript and the result blob to their absent defaults, clears both state
flags (so the state is Idle) and stops the timer, but it does not clear the
captured-chunks buffer — `chunksRef` is only emptied by the next `start()`. -/
theorem reset_restores_defaults (s : RecorderState) :
    (resetRecording s).recordingTime = 0
    ∧ (resetRecording s).transcription = ""
    ∧ (resetRecording s).audioBlob = none
    ∧ (resetRecording s).isRecording = false
    ∧ (resetRecording s).isPaused = false
    ∧ (resetRecording s).timerActive = false
    ∧ (resetRecording s).chunks = s.chunks :=
  ⟨rfl, rfl, rfl, rfl, rfl, rfl, rfl⟩

/-- Claim C6: the time formatter renders every non-negative number of seconds
as `MM:SS`, minutes `n / 60` (no hour rollover, field unbounded) and seconds
`n % 60`, each zero-padded to two digits; in particular the four examples of
the spec, and a value past one hundred minutes showing the unbounded minutes
field. -/
theorem formatTime_renders_mmss :
    (∀ n : Nat, formatTime n = specMMSS n)
    ∧ formatTime 0 = "00:00"
    ∧ formatTime 59 = "00:59"
    ∧ formatTime 60 = "01:00"
    ∧ formatTime 3661 = "61:01"
    ∧ formatTime 6000 = "100:00" :=
  ⟨formatTime_eq_specMMSS, by decide, by decide, by decide, by decide, by decide⟩

/-! ### Session traces and the result blob -/

/-- Events that can occur inside one recording session, strictly between the
start click and the stop click. -/
def sessionEvent : Event → Bool
  | .pauseClick => true
  | .tick => true
  | .dataAvailable _ => true
  | _ => false

/-- The chunks delivered by the host along a trace, in arrival order. -/
def arrivals (es : List Event) : List Chunk :=
  es.filterMap fun e =>
    match e with
    | .dataAvailable c => some c
    | _ => none

/-- A session event does not change the recording flag, the blob, or whether a
recorder object exists. -/
theorem session_step_fields (s : RecorderState) (e : Event)
    (he : sessionEvent e = true) :
    (step s e).isRecording = s.isRecording
    ∧ (step s e).audioBlob = s.audioBlob
    ∧ (step s e).mediaRecorder.isSome = s.mediaRecorder.isSome := by
  cases e with
  | pauseClick =>
      simp only [step, pauseRecording]
      split
      · split <;> simp [Option.isSome_map]
      · exact ⟨rfl, rfl, rfl⟩
  | tick =>
      simp only [step]
      split <;> exact ⟨rfl, rfl, rfl⟩
  | dataAvailable c =>
      simp only [step, handleDataAvailable]
      split
      · split <;> exact ⟨rfl, rfl, rfl⟩
      · exact ⟨rfl, rfl, rfl⟩
  | startClick o => simp [sessionEvent] at he
  | stopClick => simp [sessionEvent] at he
  | resetClick => simp [sessionEvent] at he
  | recorderOnStop => simp [sessionEvent] at he
  | transcriptionFire i => simp [sessionEvent] at he

/-- Along a session trace the recording flag, the blob and the existence of
the recorder are invariant. -/
theorem session_run_fields (es : List Event) :
    ∀ s : RecorderState, (∀ e ∈ es, sessionEvent e = true) →
      (run s es).isRecording = s.isRecording
      ∧ (run s es).audioBlob = s.audioBlob
      ∧ (run s es).mediaRecorder.isSome = s.mediaRecorder.isSome := by
  induction es with
  | nil => intro s _; exact ⟨rfl, rfl, rfl⟩
  | cons e es ih =>
    intro s hsess
    have h1 := session_step_fields s e (hsess e (List.mem_cons_self e es))
    have h2 := ih (step s e) fun e h => hsess e (List.mem_cons_of_mem _ h)
    exact ⟨h2.1.trans h1.1, h2.2.1.trans h1.2.1, h2.2.2.trans h1.2.2⟩

/-- Along a host-valid session trace, the chunk buffer accumulates exactly the
non-empty arrived chunks, in arrival order. -/
theorem session_chunks (es : List Event) :
    ∀ s : RecorderState, (∀ e ∈ es, sessionEvent e = true) →
      validFrom s es = true →
      (run s es).chunks =
        s.chunks ++ (arrivals es).filter fun c => decide (0 < c.length) := by
  induction es with
  | nil => intro s _ _; simp [run, arrivals]
  | cons e es ih =>
    intro s hsess hv
    rw [validFrom, Bool.and_eq_true] at hv
    have hrest : ∀ e ∈ es, sessionEvent e = true :=
      fun e h => hsess e (List.mem_cons_of_mem _ h)
    have hrun : run s (e :: es) = run (step s e) es := rfl
    cases e with
    | pauseClick =>
        have hch : (step s Event.pauseClick).chunks = s.chunks := by
          simp only [step, pauseRecording]
          split
          · split <;> rfl
          · rfl
        rw [hrun, ih _ hrest hv.2, hch]
        simp [arrivals, List.filterMap_cons]
    | tick =>
        have hch : (step s Event.tick).chunks = s.chunks := by
          simp only [step]; split <;> rfl
        rw [hrun, ih _ hrest hv.2, hch]
        simp [arrivals, List.filterMap_cons]
    | dataAvailable c =>
        have hmr : s.mediaRecorder = some MRPhase.recording :=
          of_decide_eq_true hv.1
        have hch : (step s (Event.dataAvailable c)).chunks =
            s.chunks ++ if 0 < c.length then [c] else [] := by
          simp only [step, handleDataAvailable, hmr, Option.isSome_some, if_true]
          split <;> simp
        rw [hrun, ih _ hrest hv.2, hch]
        have harr : arrivals (Event.dataAvailable c :: es) = c :: arrivals es := by
          simp [arrivals, List.filterMap_cons]
        rw [harr, List.filter_cons, List.append_assoc]
        by_cases hc : 0 < c.length <;> simp [hc]
    | startClick o => exact absurd (hsess _ (List.mem_cons_self _ _)) (by simp [sessionEvent])
    | stopClick => exact absurd (hsess _ (List.mem_cons_self _ _)) (by simp [sessionEvent])
    | resetClick => exact absurd (hsess _ (List.mem_cons_self _ _)) (by simp [sessionEvent])
    | recorderOnStop => exact absurd (hsess _ (List.mem_cons_self _ _)) (by simp [sessionEvent])
    | transcriptionFire i => exact absurd (hsess _ (List.mem_cons_self _ _)) (by simp [sessionEvent])

/-- Dropping the empty chunks does not change the concatenated bytes. -/
theorem flatten_filter_pos (l : List Chunk) :
    (l.filter fun c => decide (0 < c.length)).flatten = l.flatten := by
  induction l with
  | nil => rfl
  | cons c l ih =>
    by_cases h : 0 < c.length
    · simp [List.filter_cons, h, ih]
    · have hc : c = [] := List.length_eq_zero.mp (by omega)
      simp [List.filter_cons, h, ih, hc]

/-- Dispatch of the `onstop` event when `stop()` was called. -/
theorem step_onStop (s : RecorderState)
    (h : s.mediaRecorder = some MRPhase.stopPending) :
    step s Event.recorderOnStop = onStop s := by
  simp [step, h]

/-- Only the `onstop` callback ever sets the blob (to the concatenation of the
accumulated chunks) and only `reset` ever clears it; no other event writes it. -/
theorem audioBlob_writes (s : RecorderState) (e : Event)
    (h : (step s e).audioBlob ≠ s.audioBlob) :
    (e = Event.recorderOnStop ∧ (step s e).audioBlob = some s.chunks.flatten)
    ∨ (e = Event.resetClick ∧ (step s e).audioBlob = none) := by
  cases e with
  | startClick o =>
      exfalso; apply h
      simp only [step]
      split
      · rfl
      · cases o <;> rfl
  | pauseClick =>
      exfalso; apply h
      simp only [step, pauseRecording]
      split
      · split <;> rfl
      · rfl
  | stopClick =>
      exfalso; apply h
      simp only [step, stopRecording]
      split <;> rfl
  | resetClick =>
      by_cases hc : uiResetEnabled s = true
      · right
        refine ⟨rfl, ?_⟩
        simp [step, hc, resetRecording, stopTimer]
      · exfalso; apply h; simp [step, hc]
  | tick =>
      exfalso; apply h
      simp only [step]; split <;> rfl
  | dataAvailable c =>
      exfalso; apply h
      simp only [step, handleDataAvailable]
      split
      · split <;> rfl
      · rfl
  | recorderOnStop =>
      by_cases hc : s.mediaRecorder = some MRPhase.stopPending
      · left
        refine ⟨rfl, ?_⟩
        simp [step, hc, onStop, simulateTranscription]
      · exfalso; apply h; simp [step, hc]
  | transcriptionFire i =>
      exfalso; apply h
      simp only [step]
      split
      · rfl
      · rfl

/-- Claim C3: starting a session from the initial state, running any host-valid
sequence of in-session events (pause/resume toggles, ticks, chunk arrivals —
host-valid means chunks only arrive while the recorder is actively recording,
i.e. between start/resume and the next pause/stop), then stopping: the blob is
unset throughout the session and right after `stop()`, the chunk buffer is the
arrived chunks in arrival order (empty ones dropped), and at the `onstop`
callback the blob is set to exactly the byte-for-byte concatenation of the
arrived chunks; moreover, globally, the only event that ever sets the blob is
the `onstop` callback (and only `reset` clears it), so it is set exactly once
per stop. -/
theorem resultBlob_is_ordered_concat (n : Nat) (mid : List Event)
    (hsess : ∀ e ∈ mid, sessionEvent e = true)
    (hvalid : validFrom (step initState (Event.startClick (.ok n))) mid = true) :
    (run (step initState (Event.startClick (.ok n))) mid).audioBlob = none
    ∧ (stopRecording (run (step initState (Event.startClick (.ok n))) mid)).audioBlob
        = none
    ∧ (run (step initState (Event.startClick (.ok n))) mid).chunks =
        (arrivals mid).filter (fun c => decide (0 < c.length))
    ∧ (step (stopRecording (run (step initState (Event.startClick (.ok n))) mid))
          Event.recorderOnStop).audioBlob = some (arrivals mid).flatten
    ∧ (∀ (t : RecorderState) (e : Event), (step t e).audioBlob ≠ t.audioBlob →
        (e = Event.recorderOnStop ∧ (step t e).audioBlob = some t.chunks.flatten)
        ∨ (e = Event.resetClick ∧ (step t e).audioBlob = none)) := by
  have hfields := session_run_fields mid (step initState (Event.startClick (.ok n))) hsess
  have hrec : (run (step initState (Event.startClick (.ok n))) mid).isRecording = true :=
    hfields.1
  have hblob : (run (step initState (Event.startClick (.ok n))) mid).audioBlob = none :=
    hfields.2.1
  have hsome :
      (run (step initState (Event.startClick (.ok n))) mid).mediaRecorder.isSome = true :=
    hfields.2.2
  have hchunks := session_chunks mid (step initState (Event.startClick (.ok n))) hsess hvalid
  have hchunks0 : (step initState (Event.startClick (.ok n))).chunks = [] := rfl
  rw [hchunks0, List.nil_append] at hchunks
  have hguard :
      ((run (step initState (Event.startClick (.ok n))) mid).mediaRecorder.isSome
        && (run (step initState (Event.startClick (.ok n))) mid).isRecording) = true := by
    rw [hsome, hrec]; rfl
  obtain ⟨p, hp⟩ := Option.isSome_iff_exists.mp hsome
  refine ⟨hblob, ?_, hchunks, ?_, audioBlob_writes⟩
  · simp only [stopRecording, hguard, if_true]
    exact hblob
  · have hstop :
        (stopRecording (run (step initState (Event.startClick (.ok n))) mid)).mediaRecorder
          = some MRPhase.stopPending := by
      simp [stopRecording, hrec, hp]
    have hstopchunks :
        (stopRecording (run (step initState (Event.startClick (.ok n))) mid)).chunks =
          (run (step initState (Event.startClick (.ok n))) mid).chunks := by
      simp [stopRecording, hrec, hp]
    rw [step_onStop _ hstop]
    show some ((stopRecording
      (run (step initState (Event.startClick (.ok n))) mid)).chunks.flatten) = _
    rw [hstopchunks, hchunks, flatten_filter_pos]

/-- Witness for claim C3: a concrete session with chunks `[1, 2]`, a tick, a
pause/resume round trip, an empty chunk and chunk `[3]` yields the blob
`[1, 2, 3]`. -/
theorem resultBlob_is_ordered_concat_witness :
    (step (stopRecording (run (step initState (Event.startClick (.ok 1)))
        [Event.dataAvailable [1, 2], Event.tick, Event.pauseClick,
         Event.pauseClick, Event.dataAvailable [], Event.dataAvailable [3]]))
      Event.recorderOnStop).audioBlob = some [1, 2, 3] := by
  have h := resultBlob_is_ordered_concat 1
    [Event.dataAvailable [1, 2], Event.tick, Event.pauseClick,
     Event.pauseClick, Event.dataAvailable [], Event.dataAvailable [3]]
    (by decide) (by decide)
  exact h.2.2.2.1.trans (by decide)

/-! ### The placeholder transcription task -/

/-- Claim C7: stopping from Recording or from Paused (`isRecording` is true in
both, and the guard only needs a recorder object to exist) leads, at the
`onstop` callback, to a placeholder-transcription task scheduled with the
fixed 2000 ms delay; when the timeout fires with any random index, the stored
transcript is one of the exactly three fixed sample strings, every one of the
three is attainable, and the transcription-complete toast fires. -/
theorem stop_schedules_placeholder_transcription (s : RecorderState) (i : Fin 3)
    (hrec : s.isRecording = true) (hmr : s.mediaRecorder.isSome = true) :
    (step (stopRecording s) Event.recorderOnStop).pendingTranscription = some 2000
    ∧ (step (step (stopRecording s) Event.recorderOnStop)
        (Event.transcriptionFire i)).transcription ∈ sampleTranscriptions
    ∧ (step (step (stopRecording s) Event.recorderOnStop)
        (Event.transcriptionFire i)).toasts =
        (step (stopRecording s) Event.recorderOnStop).toasts ++ [transcriptionDoneToast]
    ∧ sampleTranscriptions.length = 3
    ∧ (∀ t ∈ sampleTranscriptions, ∃ j : Fin 3,
        (step (step (stopRecording s) Event.recorderOnStop)
          (Event.transcriptionFire j)).transcription = t) := by
  obtain ⟨p, hp⟩ := Option.isSome_iff_exists.mp hmr
  have hstop : (stopRecording s).mediaRecorder = some MRPhase.stopPending := by
    simp [stopRecording, hrec, hp]
  rw [step_onStop _ hstop]
  have hpend : (onStop (stopRecording s)).pendingTranscription = some 2000 := rfl
  have hfire : ∀ j : Fin 3,
      step (onStop (stopRecording s)) (Event.transcriptionFire j) =
        completeTranscription (onStop (stopRecording s)) j := by
    intro j
    simp [step, hpend]
  refine ⟨hpend, ?_, ?_, rfl, ?_⟩
  · rw [hfire i]
    exact sampleTranscriptions.get_mem _ _
  · rw [hfire i]
    rfl
  · intro t ht
    obtain ⟨idx, hidx⟩ := List.mem_iff_get.mp ht
    refine ⟨⟨idx.val, idx.isLt⟩, ?_⟩
    rw [hfire]
    exact hidx

/-- Witness for claim C7 at a concrete Recording state and random index 0. -/
theorem stop_schedules_placeholder_transcription_witness :
    (step (stopRecording (run initState [Event.startClick (.ok 1)]))
      Event.recorderOnStop).pendingTranscription = some 2000 :=
  (stop_schedules_placeholder_transcription
    (run initState [Event.startClick (.ok 1)]) 0 (by decide) (by decide)).1

/-! ### The download file name -/

/-- Counterexample to claim C8: at a concrete timestamp the generated file
name does not begin with the prefix "recording-": it is built with the prefix
"gravacao-". -/
theorem download_name_prefix_counterexample :
    (downloadFileName "2026-01-02T03:04:05.678Z").data.take 10 ≠
        "recording-".data
    ∧ downloadFileName "2026-01-02T03:04:05.678Z" =
        "gravacao-2026-01-02T03-04-05.wav" := by
  refine ⟨by decide, by decide⟩

/-- Claim C8 as amended: for every download the generated file name begins with
the prefix "gravacao-" (not "recording-"), followed by the ISO-8601 timestamp
truncated to seconds precision (its first 19 characters) with every colon
replaced by a hyphen — so the timestamp part contains no colon — followed by
the fixed extension ".wav". -/
theorem download_name_shape (iso : String) :
    (downloadFileName iso).data =
        "gravacao-".data ++ (replaceColon (sliceTo iso 19)).data ++ ".wav".data
    ∧ (replaceColon (sliceTo iso 19)).data =
        (iso.data.take 19).map (fun c => if c = ':' then '-' else c)
    ∧ ((replaceColon (sliceTo iso 19)).data.all fun c => c != ':') = true
    ∧ downloadFileName "2026-01-02T03:04:05.678Z" =
        "gravacao-2026-01-02T03-04-05.wav" := by
  refine ⟨?_, rfl, ?_, by decide⟩
  · simp [downloadFileName, String.data_append]
  · rw [List.all_eq_true]
    intro c hc
    simp only [replaceColon, sliceTo] at hc
    obtain ⟨a, _, ha⟩ := List.mem_map.mp hc
    subst ha
    split <;> simp_all

/-! ### Resource cleanup -/

/-- Truth of "the component holds no live capture track": either no stream was
ever stored, or every track of the stored stream is stopped. -/
def noActiveTracks (s : RecorderState) : Bool :=
  match s.stream with
  | none => true
  | some st => st.tracks.all fun t => !t

/-- Whether an event is a click on the start control. -/
def isStartClick : Event → Bool
  | .startClick _ => true
  | _ => false

/-- Stopping the tracks of any stream leaves no live track. -/
theorem noActiveTracks_map_stopTracks (o : Option Stream) :
    (match o.map stopTracks with
      | none => true
      | some st => st.tracks.all fun t => !t) = true := by
  cases o with
  | none => rfl
  | some st => simp [stopTracks, List.all_map]

/-- In a quiescent state (not recording, timer off, no live track) every event
other than a start click preserves quiescence. -/
theorem quiescent_step (s : RecorderState) (e : Event)
    (hnr : s.isRecording = false) (ht : s.timerActive = false)
    (hs : noActiveTracks s = true) (hne : isStartClick e = false) :
    (step s e).isRecording = false ∧ (step s e).timerActive = false
      ∧ noActiveTracks (step s e) = true := by
  cases e with
  | startClick o => simp [isStartClick] at hne
  | pauseClick =>
      have : step s Event.pauseClick = s := by simp [step, pauseRecording, hnr]
      rw [this]; exact ⟨hnr, ht, hs⟩
  | stopClick =>
      have : step s Event.stopClick = s := by simp [step, stopRecording, hnr]
      rw [this]; exact ⟨hnr, ht, hs⟩
  | resetClick =>
      simp only [step]
      split
      · exact ⟨rfl, rfl, hs⟩
      · exact ⟨hnr, ht, hs⟩
  | tick =>
      simp only [step, ht]
      exact ⟨hnr, ht, hs⟩
  | dataAvailable c =>
      simp only [step, handleDataAvailable]
      split
      · split
        · exact ⟨hnr, ht, hs⟩
        · exact ⟨hnr, ht, hs⟩
      · exact ⟨hnr, ht, hs⟩
  | recorderOnStop =>
      simp only [step]
      split
      · exact ⟨hnr, ht, hs⟩
      · exact ⟨hnr, ht, hs⟩
  | transcriptionFire i =>
      simp only [step]
      split
      · exact ⟨hnr, ht, hs⟩
      · exact ⟨hnr, ht, hs⟩

/-- Quiescence persists along any trace without a start click. -/
theorem quiescent_run (es : List Event) :
    ∀ s : RecorderState, s.isRecording = false → s.timerActive = false →
      noActiveTracks s = true → (∀ e ∈ es, isStartClick e = false) →
      (run s es).isRecording = false ∧ (run s es).timerActive = false
        ∧ noActiveTracks (run s es) = true := by
  induction es with
  | nil => intro s h1 h2 h3 _; exact ⟨h1, h2, h3⟩
  | cons e es ih =>
    intro s h1 h2 h3 hne
    have hq := quiescent_step s e h1 h2 h3 (hne e (List.mem_cons_self e es))
    exact ih (step s e) hq.1 hq.2.1 hq.2.2
      fun e h => hne e (List.mem_cons_of_mem _ h)

/-- Claim C9: the unmount cleanup cancels the interval and stops every track
of the stored stream, from any state (including abrupt teardown while
Recording or Paused); `stop()` invoked with a recorder while recording (this
covers both Recording and Paused) likewise leaves the timer cancelled, no live
track and the recording flag off; and once in such a quiescent state, no event
other than a fresh start click ever re-activates the timer or a track. -/
theorem cleanup_on_stop_and_teardown (s : RecorderState) (es : List Event) :
    ((teardown s).timerActive = false ∧ noActiveTracks (teardown s) = true)
    ∧ (s.isRecording = true → s.mediaRecorder.isSome = true →
        (stopRecording s).timerActive = false
        ∧ noActiveTracks (stopRecording s) = true
        ∧ (stopRecording s).isRecording = false)
    ∧ (s.isRecording = false → s.timerActive = false → noActiveTracks s = true →
        (∀ e ∈ es, isStartClick e = false) →
        (run s es).timerActive = false ∧ noActiveTracks (run s es) = true) := by
  refine ⟨⟨rfl, ?_⟩, ?_, ?_⟩
  · exact noActiveTracks_map_stopTracks s.stream
  · intro hrec hmr
    obtain ⟨p, hp⟩ := Option.isSome_iff_exists.mp hmr
    have hact : stopRecording s =
        { s with mediaRecorder := s.mediaRecorder.map fun _ => MRPhase.stopPending
                 timerActive := false
                 isRecording := false
                 isPaused := false
                 stream := s.stream.map stopTracks
                 toasts := s.toasts ++ [stopToast] } := by
      simp [stopRecording, hrec, hp]
    rw [hact]
    exact ⟨rfl, noActiveTracks_map_stopTracks s.stream, rfl⟩
  · intro h1 h2 h3 hne
    have h := quiescent_run es s h1 h2 h3 hne
    exact ⟨h.2.1, h.2.2⟩

/-- Witness for claim C9: stop from a concrete Recording state with a
two-track stream leaves no timer and no live track; from the resulting
quiescent state, a reset click and a tick keep the timer off. -/
theorem cleanup_on_stop_and_teardown_witness :
    (stopRecording (run initState [Event.startClick (.ok 2)])).timerActive = false
    ∧ noActiveTracks (stopRecording (run initState [Event.startClick (.ok 2)])) = true
    ∧ (run (stopRecording (run initState [Event.startClick (.ok 2)]))
        [Event.resetClick, Event.tick]).timerActive = false := by
  have h1 := (cleanup_on_stop_and_teardown
    (run initState [Event.startClick (.ok 2)]) []).2.1 (by decide) (by decide)
  have h2 := (cleanup_on_stop_and_teardown
    (stopRecording (run initState [Event.startClick (.ok 2)]))
    [Event.resetClick, Event.tick]).2.2 (by decide) (by decide) (by decide)
    (by decide)
  exact ⟨h1.1, h1.2.1, h2.1⟩

/-! ### Chunk filtering -/

/-- Claim C10: with a recorder installed, delivering any sequence of chunks
appends exactly the non-empty ones, in arrival order (zero-size chunks are
silently discarded); the discarded chunks never change the bytes of the final
blob, since the concatenation of the kept chunks equals the concatenation of
all delivered chunks; and if every buffered chunk was non-empty before, every
buffered chunk is non-empty afterwards. -/
theorem empty_chunks_discarded (s : RecorderState) (cs : List Chunk)
    (hmr : s.mediaRecorder.isSome = true) :
    (cs.foldl handleDataAvailable s).chunks =
        s.chunks ++ cs.filter (fun c => decide (0 < c.length))
    ∧ (cs.foldl handleDataAvailable s).chunks.flatten =
        s.chunks.flatten ++ cs.flatten
    ∧ ((∀ ch ∈ s.chunks, 0 < ch.length) →
        ∀ ch ∈ (cs.foldl handleDataAvailable s).chunks, 0 < ch.length) := by
  have key : ∀ (cs : List Chunk) (s : RecorderState),
      s.mediaRecorder.isSome = true →
      (cs.foldl handleDataAvailable s).chunks =
        s.chunks ++ cs.filter (fun c => decide (0 < c.length)) := by
    intro cs
    induction cs with
    | nil => intro s _; simp
    | cons c cs ih =>
      intro s hmr
      have hpres : (handleDataAvailable s c).mediaRecorder = s.mediaRecorder := by
        simp only [handleDataAvailable, hmr, if_true]
        split <;> rfl
      have hch : (handleDataAvailable s c).chunks =
          s.chunks ++ if 0 < c.length then [c] else [] := by
        simp only [handleDataAvailable, hmr, if_true]
        split <;> simp
      have := ih (handleDataAvailable s c) (by rw [hpres]; exact hmr)
      rw [List.foldl_cons, this, hch, List.filter_cons, List.append_assoc]
      by_cases hc : 0 < c.length <;> simp [hc]
  have h1 := key cs s hmr
  refine ⟨h1, ?_, ?_⟩
  · rw [h1, List.flatten_append, flatten_filter_pos]
  · intro hall ch hch
    rw [h1] at hch
    rcases List.mem_append.mp hch with h | h
    · exact hall ch h
    · exact of_decide_eq_true (List.mem_filter.mp h).2

/-- Witness for claim C10: delivering an empty chunk between `[5]` and `[6]`
keeps only the non-empty ones, and the concatenated bytes are `[5, 6]`. -/
theorem empty_chunks_discarded_witness :
    ([([] : Chunk), [5], [], [6]].foldl handleDataAvailable
        (run initState [Event.startClick (.ok 1)])).chunks = [[5], [6]]
    ∧ ([([] : Chunk), [5], [], [6]].foldl handleDataAvailable
        (run initState [Event.startClick (.ok 1)])).chunks.flatten = [5, 6] := by
  have h := empty_chunks_discarded (run initState [Event.startClick (.ok 1)])
    [[], [5], [], [6]] (by decide)
  exact ⟨h.1.trans (by decide), h.2.1.trans (by decide)⟩

end VoiceRecorder
